import Mathlib

/-!
A verification development for the `jsdoc-generator` VS Code extension.

The repository ships `src/extension.ts`: the command surface, the completion
provider and the configuration accessor.  Those are embedded shallowly below
(the module-level generator slot as explicit state, the command handlers as
pure functions recording the generator calls they make, the regular
expressions of the completion provider as executable character-list
functions).  The core pipeline (`JsdocGenerator.ts`, not part of the shipped
sources) is modelled from the specification where a claim needs it; every
such definition carries a doc comment starting `Modelled from the spec:`.
-/

namespace JsdocGen

/-! ## Characters and whitespace -/

/-- The whitespace characters relevant to the extension's regular expressions
(the ASCII range of the ECMAScript character class \s). -/
def isWs (c : Char) : Bool :=
  c == ' ' || c == '\t' || c == '\n' || c == '\r' || c == '\x0b' || c == '\x0c'

/-! ## The module-level generator slot (`src/extension.ts`, lines 7-12 and 250-257)

`let jsdocGenerator: JsdocGenerator;` is a module-level mutable variable and
`lazyInstantiateJsdocGenerator` fills it on first use.  The embedding threads
that variable through every command handler as an explicit `ModuleState`;
engine objects are identified by the value of a fresh-object counter so that
"the engine object created by invocation k" is expressible. -/

/-- An engine instance (`new JsdocGenerator()`), identified by its creation
index. -/
structure JsdocGenerator where
  id : Nat
deriving DecidableEq, Repr

/-- The module-level mutable state of `extension.ts`: the `jsdocGenerator`
variable plus the fresh-object counter that names the next engine built by
`new JsdocGenerator()`. -/
structure ModuleState where
  jsdocGenerator : Option JsdocGenerator
  nextId : Nat
deriving DecidableEq, Repr

/-- The module state right after the module is loaded: `jsdocGenerator` is
still unassigned. -/
def initialModuleState : ModuleState :=
  { jsdocGenerator := none, nextId := 0 }

/-- `function lazyInstantiateJsdocGenerator()`: assigns
`new JsdocGenerator()` to the module variable if and only if it is still
unassigned. -/
def lazyInstantiateJsdocGenerator (st : ModuleState) : ModuleState :=
  match st.jsdocGenerator with
  | none => { jsdocGenerator := some { id := st.nextId }, nextId := st.nextId + 1 }
  | some _ => st

/-! ## The host objects the handlers touch -/

/-- A `vscode.Uri`. -/
structure Uri where
  fsPath : String
deriving DecidableEq, Repr

/-- A `vscode.TextEditor`, identified abstractly. -/
structure TextEditor where
  id : Nat
deriving DecidableEq, Repr

/-- A `vscode.WorkspaceEdit`: the list of edits it holds. -/
structure WorkspaceEdit where
  edits : List (String × String)
deriving DecidableEq, Repr

/-- `new vscode.WorkspaceEdit()`: a fresh, empty edit. -/
def WorkspaceEdit.fresh : WorkspaceEdit :=
  { edits := [] }

/-- A `TextFile`, as `extension.ts` constructs one: either from a
`WorkspaceEdit` and a `Uri`, or from a `TextEditor`. -/
inductive TextFile where
  | ofWorkspaceEdit (edit : WorkspaceEdit) (uri : Uri)
  | ofTextEditor (editor : TextEditor)
deriving DecidableEq, Repr

/-- The relevant part of `vscode.window`. -/
structure WindowState where
  activeTextEditor : Option TextEditor
deriving DecidableEq, Repr

/-- The generator entry points the handlers dispatch to. -/
inductive EntryPoint where
  | generateJsdoc
  | generateJsdocFile
  | generateJsdocWorkspace
deriving DecidableEq, Repr

/-- One call a command handler makes into the engine, recording which entry
point it invoked, on which engine object, and which progress reporter,
cancellation token and arguments it forwarded. -/
structure GeneratorCall where
  entryPoint : EntryPoint
  generator : JsdocGenerator
  progress : Nat
  token : Nat
  editorArg : Option TextEditor
  fileArg : Option TextFile
  folderArg : Option Uri
deriving DecidableEq, Repr

/-- What one run of a command handler body (the callback given to
`vscode.window.withProgress`) does: the module state it leaves behind, the
generator calls it makes, the error messages it shows, and whether the
promise it returns resolves. -/
structure HandlerRun where
  state : ModuleState
  calls : List GeneratorCall
  errorMessages : List String
  resolves : Bool
deriving DecidableEq, Repr

/-! ## The four command handler bodies (`src/extension.ts`, lines 316-381) -/

/-- The body of the `jsdoc-generator.generateJsdoc` command: lazily
instantiates the engine, then either runs it on the active editor or shows
an error and resolves. -/
def generateJsdocHandler (window : WindowState) (st : ModuleState)
    (progress token : Nat) : HandlerRun :=
  let st' := lazyInstantiateJsdocGenerator st
  let gen := st'.jsdocGenerator.getD { id := 0 }
  match window.activeTextEditor with
  | some editor =>
      { state := st'
        calls := [{ entryPoint := .generateJsdoc, generator := gen,
                    progress := progress, token := token,
                    editorArg := some editor, fileArg := none, folderArg := none }]
        errorMessages := []
        resolves := true }
  | none =>
      { state := st'
        calls := []
        errorMessages := ["Unable to generate JSDoc: no editor has been selected."]
        resolves := true }

/-- The body of the `jsdoc-generator.generateJsdocFile` command: prefers the
supplied file `Uri` (wrapped in a `TextFile` with a fresh `WorkspaceEdit`),
falls back to the active editor, else shows an error and resolves. -/
def generateJsdocFileHandler (file : Option Uri) (window : WindowState)
    (st : ModuleState) (progress token : Nat) : HandlerRun :=
  let st' := lazyInstantiateJsdocGenerator st
  let gen := st'.jsdocGenerator.getD { id := 0 }
  match file with
  | some f =>
      { state := st'
        calls := [{ entryPoint := .generateJsdocFile, generator := gen,
                    progress := progress, token := token,
                    editorArg := none,
                    fileArg := some (TextFile.ofWorkspaceEdit WorkspaceEdit.fresh f),
                    folderArg := none }]
        errorMessages := []
        resolves := true }
  | none =>
      match window.activeTextEditor with
      | some editor =>
          { state := st'
            calls := [{ entryPoint := .generateJsdocFile, generator := gen,
                        progress := progress, token := token,
                        editorArg := none,
                        fileArg := some (TextFile.ofTextEditor editor),
                        folderArg := none }]
            errorMessages := []
            resolves := true }
      | none =>
          { state := st'
            calls := []
            errorMessages := ["Unable to generate JSDoc: no valid file has been selected."]
            resolves := true }

/-- The body of the `jsdoc-generator.generateJsdocFolder` command: forwards
the selected folder `Uri` (possibly absent) to the workspace-scope entry
point. -/
def generateJsdocFolderHandler (folder : Option Uri) (st : ModuleState)
    (progress token : Nat) : HandlerRun :=
  let st' := lazyInstantiateJsdocGenerator st
  let gen := st'.jsdocGenerator.getD { id := 0 }
  { state := st'
    calls := [{ entryPoint := .generateJsdocWorkspace, generator := gen,
                progress := progress, token := token,
                editorArg := none, fileArg := none, folderArg := folder }]
    errorMessages := []
    resolves := true }

/-- The body of the `jsdoc-generator.generateJsdocWorkspace` command: invokes
the workspace-scope entry point with no folder argument. -/
def generateJsdocWorkspaceHandler (st : ModuleState)
    (progress token : Nat) : HandlerRun :=
  let st' := lazyInstantiateJsdocGenerator st
  let gen := st'.jsdocGenerator.getD { id := 0 }
  { state := st'
    calls := [{ entryPoint := .generateJsdocWorkspace, generator := gen,
                progress := progress, token := token,
                editorArg := none, fileArg := none, folderArg := none }]
    errorMessages := []
    resolves := true }

/-- The options `extension.ts` passes to `vscode.window.withProgress`. -/
structure ProgressOptions where
  title : String
  cancellable : Bool
deriving DecidableEq, Repr

/-- One command registration of `activate`: the command id, the progress
options wrapping the handler body, and the body itself (given the command
argument, the window state, the module state, and the progress reporter and
cancellation token that `withProgress` supplies). -/
structure RegisteredCommand where
  id : String
  progressOptions : ProgressOptions
  handler : Option Uri → WindowState → ModuleState → Nat → Nat → HandlerRun

/-- The four commands `activate` registers (`src/extension.ts`,
lines 316-381), in registration order. -/
def activateCommands : List RegisteredCommand :=
  [ { id := "jsdoc-generator.generateJsdoc"
      progressOptions := { title := "JSDocGen (node)", cancellable := true }
      handler := fun _ window st p t => generateJsdocHandler window st p t },
    { id := "jsdoc-generator.generateJsdocFile"
      progressOptions := { title := "JSDocGen (file)", cancellable := true }
      handler := fun file window st p t => generateJsdocFileHandler file window st p t },
    { id := "jsdoc-generator.generateJsdocFolder"
      progressOptions := { title := "JSDocGen (folder)", cancellable := true }
      handler := fun folder _ st p t => generateJsdocFolderHandler folder st p t },
    { id := "jsdoc-generator.generateJsdocWorkspace"
      progressOptions := { title := "JSDocGen (workspace)", cancellable := true }
      handler := fun _ _ st p t => generateJsdocWorkspaceHandler st p t } ]

/-! ## Positions, ranges and string slicing -/

/-- A `vscode.Position`. -/
structure Position where
  line : Nat
  character : Nat
deriving DecidableEq, Repr

/-- `Position.translate(lineDelta, characterDelta)`: shifts a position by the
given deltas (the results stay non-negative at every use below). -/
def Position.translate (p : Position) (lineDelta characterDelta : Int) : Position :=
  { line := ((p.line : Int) + lineDelta).toNat
    character := ((p.character : Int) + characterDelta).toNat }

/-- A `vscode.Range`; `stop` stands for the range's `end`. -/
structure Range where
  start : Position
  stop : Position
deriving DecidableEq, Repr

/-- `line.slice(0, n)` of ECMAScript: the first `n` characters (the whole
string when `n` exceeds its length). -/
def sliceTo (s : String) (n : Nat) : String :=
  String.mk (s.data.take n)

/-- `line.slice(n)` of ECMAScript: everything from character `n` on. -/
def sliceFrom (s : String) (n : Nat) : String :=
  String.mk (s.data.drop n)

/-! ## The completion provider's regular expressions

`provideCompletionItems` tests the pre-cursor text against `^\s*\/\*\*\s*$`;
`retrieveRange` matches the pre-cursor text against `\/\**\s*$` and the
post-cursor text against `^\s*\**\//`.  Each is embedded as an executable
function on character lists.  Greedy matching with backtracking coincides
with maximal munch for all three: every literal in them (`/`, `*`) is
outside the preceding repeated class, so giving characters back to a
repetition can never let a later literal match. -/

/-- Whether a character list is `\**\s*` in full: a run of `*`, then only
whitespace. -/
def isStarWsTail (cs : List Char) : Bool :=
  (cs.dropWhile (fun c => c == '*')).all isWs

/-- Whether a character list matches `\/\**\s*$` in full, i.e. is `/`, then a
run of `*`, then only whitespace. -/
def preMatchList : List Char → Bool
  | '/' :: rest => isStarWsTail rest
  | _ => false

/-- The length of the match of `/\/\**\s*$/` against a character list: the
regular expression engine takes the leftmost start position whose suffix
matches through to the end, so this is the length of the longest matching
suffix, and `0` when no suffix matches (the pattern cannot match the empty
string). -/
def preLen : List Char → Nat
  | [] => 0
  | c :: rest => if preMatchList (c :: rest) then rest.length + 1 else preLen rest

/-- The tail step of `postLen`: given the total length and what remains of
the text after the whitespace and `*` runs, the match length when that
remainder starts with `/`, else `0`. -/
def postLenTail (total : Nat) : List Char → Nat
  | '/' :: rest => total - (rest.length + 1) + 1
  | _ => 0

/-- The length of the match of `/^\s*\**\//` against a character list: a
maximal whitespace run, then a maximal `*` run, then one `/`; `0` when the
anchored pattern does not match. -/
def postLen (cs : List Char) : Nat :=
  postLenTail cs.length ((cs.dropWhile isWs).dropWhile (fun c => c == '*'))

/-- Whether the text strictly before the cursor matches `^\s*\/\*\*\s*$`:
optional whitespace, the characters `/**`, optional whitespace. -/
def triggerMatch (s : String) : Bool :=
  match s.data.dropWhile isWs with
  | '/' :: '*' :: '*' :: rest => rest.all isWs
  | _ => false

/-! ## The completion item (`src/extension.ts`, lines 217-248 and 302-311) -/

/-- A `vscode.CompletionItemKind` (the variants the file touches). -/
inductive CompletionItemKind where
  | text
  | method
  | snippet
deriving DecidableEq, Repr

/-- A `vscode.Command` attached to a completion item. -/
structure CompletionCommand where
  title : String
  command : String
deriving DecidableEq, Repr

/-- `JsdocCompletionItem.retrieveRange`: the range of the partially typed
JSDoc opener around the cursor, computed from the two anchored matches. -/
def retrieveRange (line : String) (position : Position) : Range :=
  let preMatchLen := preLen (sliceTo line position.character).data
  let postMatchLen := postLen (sliceFrom line position.character).data
  let start := position.translate 0 (-(preMatchLen : Int))
  { start := start, stop := position.translate 0 (postMatchLen : Int) }

/-- A `JsdocCompletionItem` as its fields end up after construction. -/
structure JsdocCompletionItem where
  label : String
  kind : CompletionItemKind
  insertText : String
  sortText : String
  range : Range
  command : CompletionCommand
deriving DecidableEq, Repr

/-- The `JsdocCompletionItem` constructor (`src/extension.ts`,
lines 223-232). -/
def JsdocCompletionItem.make (line : String) (position : Position) : JsdocCompletionItem :=
  { label := "/** Autogenerated JSDoc */"
    kind := .snippet
    insertText := ""
    sortText := "\x00"
    range := retrieveRange line position
    command := { title := "Generate JSDoc", command := "jsdoc-generator.generateJsdoc" } }

/-- A `vscode.TextDocument`: its lines (`lineAt(n).text` reads one). -/
structure TextDocument where
  lines : List String
deriving DecidableEq, Repr

/-- `document.lineAt(n).text`. -/
def TextDocument.lineAt (d : TextDocument) (n : Nat) : String :=
  d.lines.getD n ""

/-- `provideCompletionItems` (`src/extension.ts`, lines 302-311): one
completion item when the text before the cursor matches `^\s*\/\*\*\s*$`,
`null` otherwise. -/
def provideCompletionItems (document : TextDocument) (position : Position) :
    Option (List JsdocCompletionItem) :=
  let line := document.lineAt position.line
  if triggerMatch (sliceTo line position.character) then
    some [JsdocCompletionItem.make line position]
  else
    none

/-! ## The configuration accessor (`src/extension.ts`, lines 400-402) -/

/-- A configuration value (the shapes the `Configuration` interface uses). -/
inductive ConfigValue where
  | str (value : String)
  | bool (value : Bool)
  | num (value : Int)
deriving DecidableEq, Repr

/-- The workspace-side configuration store. -/
structure WorkspaceState where
  configurationEntries : List (String × ConfigValue)
deriving DecidableEq, Repr

/-- `vscode.workspace.getConfiguration()`: hands back the store's current
entries; reading leaves the store as it was. -/
def WorkspaceState.getConfiguration (w : WorkspaceState) :
    List (String × ConfigValue) × WorkspaceState :=
  (w.configurationEntries, w)

/-- `WorkspaceConfiguration.get(key, defaultValue)`: the first value stored
under `key`, or `defaultValue` when none is. -/
def configurationGet (entries : List (String × ConfigValue)) (key : String)
    (defaultValue : ConfigValue) : ConfigValue :=
  match entries.find? (fun e => e.1 == key) with
  | some e => e.2
  | none => defaultValue

/-- `getConfig(property, defaultValue)`: a fresh
`vscode.workspace.getConfiguration()` read, then a lookup of
`jsdoc-generator.` followed by the property name. -/
def getConfig (w : WorkspaceState) (property : String) (defaultValue : ConfigValue) :
    ConfigValue × WorkspaceState :=
  let read := w.getConfiguration
  (configurationGet read.1 ("jsdoc-generator." ++ property) defaultValue, read.2)

/-! ## The core pipeline, modelled from the specification

The repository's shipped sources do not include `JsdocGenerator.ts`; the
classifier, type inferencer, tag planner and comment renderer below are
built from the specification's data model (§3) and component contracts
(§4.1-§4.4). -/

/-- Modelled from the spec: the recursive `TypeDescriptor` value of §3 —
Primitive, Array, Union, Intersection, FunctionType, Generic, Reference,
Unknown. -/
inductive TypeDescriptor where
  | primitive (name : String)
  | array (element : TypeDescriptor)
  | union (members : List TypeDescriptor)
  | intersection (members : List TypeDescriptor)
  | functionType (params : List TypeDescriptor) (returnType : TypeDescriptor)
  | generic (base : String) (typeArguments : List TypeDescriptor)
  | reference (name : String)
  | unknown

mutual
/-- Modelled from the spec: the single pure type-rendering function of §4.2
and §9.  `includeParens` is the `includeParenthesisForMultipleTypes`
configuration flag; `forced` is set by the surrounding context (the element
position of an Array, or a type that carries a trailing optional modifier),
where Union/Intersection members render parenthesized unconditionally. -/
def renderTypeDescriptor (includeParens forced : Bool) : TypeDescriptor → String
  | .primitive name => name
  | .reference name => name
  | .unknown => "unknown"
  | .array element => renderTypeDescriptor includeParens true element ++ "[]"
  | .union members =>
      let body := renderSeparated includeParens " | " members
      if includeParens || forced then "(" ++ body ++ ")" else body
  | .intersection members =>
      let body := renderSeparated includeParens " & " members
      if includeParens || forced then "(" ++ body ++ ")" else body
  | .functionType params returnType =>
      "(" ++ renderSeparated includeParens ", " params ++ ") => " ++
        renderTypeDescriptor includeParens false returnType
  | .generic base typeArguments =>
      base ++ "<" ++ renderSeparated includeParens ", " typeArguments ++ ">"

/-- Modelled from the spec: the members of a composite type, rendered in
order with a separator between them. -/
def renderSeparated (includeParens : Bool) (sep : String) : List TypeDescriptor → String
  | [] => ""
  | [t] => renderTypeDescriptor includeParens false t
  | t :: rest =>
      renderTypeDescriptor includeParens false t ++ sep ++
        renderSeparated includeParens sep rest
end

/-- Modelled from the spec: a type at a position marked optional renders with
the parenthesization of a Union/Intersection forced and a trailing optional
modifier appended (§4.2's "marked optional/required with a trailing modifier
that would otherwise parse ambiguously"). -/
def renderOptionalType (includeParens : Bool) (optional : Bool) (t : TypeDescriptor) : String :=
  renderTypeDescriptor includeParens optional t ++ (if optional then "=" else "")

/-- A JSDoc custom tag of the configuration surface. -/
structure CustomTag where
  tag : String
  placeholder : Option String
deriving DecidableEq, Repr

/-- Modelled from the spec: the immutable `RenderConfiguration` snapshot of
§3 (the configuration surface of §6). -/
structure RenderConfiguration where
  descriptionPlaceholder : String
  author : String
  includeDate : Bool
  includeTime : Bool
  includeTypes : Bool
  includeParenthesisForMultipleTypes : Bool
  descriptionForConstructors : String
  functionVariablesAsFunctions : Bool
  includeExport : Bool
  includeAsync : Bool
  customTags : List CustomTag
  tagValueColumnStart : Nat
  tagNameColumnStart : Nat
  tagDescriptionColumnStart : Nat
  generativeApiKey : String
  generativeModel : String
  generativeLanguage : String
  generateDescriptionForTypeParameters : Bool
  generateDescriptionForParameters : Bool
  generateDescriptionForReturns : Bool
deriving DecidableEq, Repr

/-- Modelled from the spec: whether the generative description collaborator
is configured and enabled (§4.3); it is an optional external service keyed
by the generative API key. -/
def generativeEnabled (cfg : RenderConfiguration) : Bool :=
  cfg.generativeApiKey != ""

/-- Modelled from the spec: the per-run ambient inputs of the core pipeline —
the response function of the optional generative description collaborator
(§6), and the current date and time that the renderer's optional date/time
metadata lines print (§4.4).  Two runs of the pipeline may observe different
values of these. -/
structure RunEnvironment where
  generativeDescription : String → Option String
  currentDate : String
  currentTime : String

/-- Modelled from the spec: §4.3's description-fetch step — when the
collaborator is configured and enabled (and the per-element flag is on), its
answer replaces the placeholder text, a failure degrading to the fallback;
otherwise the fallback is used directly. -/
def fetchDescription (cfg : RenderConfiguration) (env : RunEnvironment)
    (flagEnabled : Bool) (prompt fallback : String) : String :=
  if generativeEnabled cfg && flagEnabled then
    (env.generativeDescription prompt).getD fallback
  else
    fallback

/-- Modelled from the spec: `DeclarationKind`, the closed set of variants of
§3. -/
inductive DeclarationKind where
  | function
  | method
  | constructor
  | arrowOrFunctionVariable
  | classDeclaration
  | interfaceDeclaration
  | typeAlias
  | enumDeclaration
  | propertyOrField
  | parameter
  | typeParameter
deriving DecidableEq, Repr

/-- Modelled from the spec: `ParameterInfo` of §3 — name, type descriptor,
optional flag, rest flag, default-value presence flag. -/
structure ParameterInfo where
  name : String
  type : TypeDescriptor
  optional : Bool
  rest : Bool
  hasDefault : Bool

/-- Modelled from the spec: the structural shape of a documentable syntax
node handed to the classifier (§4.1): kind, optional name, parameters, type
parameters, return type, modifier flags. -/
structure DeclarationNode where
  kind : DeclarationKind
  name : Option String
  parameters : List ParameterInfo
  typeParameters : List String
  returnType : Option TypeDescriptor
  exported : Bool
  isAsync : Bool

/-- Modelled from the spec: `DeclarationRecord` of §3, created fresh per
candidate node and immutable after construction. -/
structure DeclarationRecord where
  kind : DeclarationKind
  name : Option String
  parameters : List ParameterInfo
  typeParameters : List String
  returnType : Option TypeDescriptor
  exported : Bool
  isAsync : Bool

/-- Modelled from the spec: the happy path of `classify` (§4.1) on a
documentable node — a fully populated record of the same shape, with the one
configuration-dependent policy: a function-valued variable classifies as
function-like only when `functionVariablesAsFunctions` is enabled, otherwise
as PropertyOrField. -/
def classify (cfg : RenderConfiguration) (node : DeclarationNode) : DeclarationRecord :=
  { kind :=
      if node.kind = DeclarationKind.arrowOrFunctionVariable
          && !cfg.functionVariablesAsFunctions then
        DeclarationKind.propertyOrField
      else
        node.kind
    name := node.name
    parameters := node.parameters
    typeParameters := node.typeParameters
    returnType := node.returnType
    exported := node.exported
    isAsync := node.isAsync }

/-- Modelled from the spec: `TagRecord` of §3 — tag keyword, optional
rendered type, optional bound name, optional description. -/
structure TagRecord where
  tag : String
  type : Option String
  name : Option String
  description : Option String
deriving DecidableEq, Repr

/-- Modelled from the spec: the summary text before any generative
replacement — the constructor-description template with `{Object}`
substituted by the enclosing class name (placeholder when anonymous), the
plain description placeholder for every other kind (§4.3). -/
def summaryFallback (cfg : RenderConfiguration) (r : DeclarationRecord) : String :=
  if r.kind = DeclarationKind.constructor then
    match r.name with
    | some className => cfg.descriptionForConstructors.replace "\x7bObject\x7d" className
    | none => cfg.descriptionPlaceholder
  else
    cfg.descriptionPlaceholder

/-- Modelled from the spec: `plan` (§4.3) — the ordered tag list: summary,
template tags, param tags, returns, export, async, then the custom tags
verbatim; `@type` information is omitted when `includeTypes` is off, export
and async tags when their flags are off. -/
def plan (cfg : RenderConfiguration) (env : RunEnvironment)
    (r : DeclarationRecord) : List TagRecord :=
  let summary : TagRecord :=
    { tag := "description", type := none, name := none
      description := some (fetchDescription cfg env true
        (r.name.getD "") (summaryFallback cfg r)) }
  let templates : List TagRecord := r.typeParameters.map fun tp =>
    { tag := "template", type := none, name := some tp
      description := some (fetchDescription cfg env
        cfg.generateDescriptionForTypeParameters tp "") }
  let params : List TagRecord := r.parameters.map fun p =>
    { tag := "param"
      type :=
        if cfg.includeTypes then
          some (renderOptionalType cfg.includeParenthesisForMultipleTypes
            p.optional p.type)
        else none
      name := some p.name
      description := some (fetchDescription cfg env
        cfg.generateDescriptionForParameters p.name "") }
  let returns : List TagRecord :=
    match r.returnType with
    | some t =>
        [{ tag := "returns"
           type :=
             if cfg.includeTypes then
               some (renderTypeDescriptor cfg.includeParenthesisForMultipleTypes false t)
             else none
           name := none
           description := some (fetchDescription cfg env
             cfg.generateDescriptionForReturns "returns" "") }]
    | none => []
  let exports : List TagRecord :=
    if r.exported && cfg.includeExport then
      [{ tag := "export", type := none, name := none, description := none }]
    else []
  let asyncs : List TagRecord :=
    if r.isAsync && cfg.includeAsync then
      [{ tag := "async", type := none, name := none, description := none }]
    else []
  let customs : List TagRecord := cfg.customTags.map fun c =>
    { tag := c.tag, type := none, name := none, description := c.placeholder }
  summary :: (templates ++ params ++ returns ++ exports ++ asyncs ++ customs)

/-- Pads a string with spaces up to the given column. -/
def padTo (s : String) (column : Nat) : String :=
  s ++ String.mk (List.replicate (column - s.length) ' ')

/-- The rendered type token of a tag line. -/
def typeToken (t : TagRecord) : String :=
  match t.type with
  | some ty => "\x7b" ++ ty ++ "\x7d"
  | none => ""

/-- The widest value `f` takes on the tags, in characters. -/
def maxWidth (f : TagRecord → String) (tags : List TagRecord) : Nat :=
  tags.foldr (fun t m => max (f t).length m) 0

/-- Modelled from the spec: `render` (§4.4) — three column start offsets
computed as the maximum rendered width of each column across all tag lines
with the configured minimums as a floor, every line padded so the columns
align; the optional author, date and time metadata lines appended after the
tag block. -/
def render (cfg : RenderConfiguration) (env : RunEnvironment)
    (tags : List TagRecord) : String :=
  let typeColumn := max cfg.tagValueColumnStart (maxWidth (fun t => "@" ++ t.tag) tags + 1)
  let nameColumn := max cfg.tagNameColumnStart (typeColumn + maxWidth typeToken tags + 1)
  let descColumn := max cfg.tagDescriptionColumnStart
    (nameColumn + maxWidth (fun t => (t.name).getD "") tags + 1)
  let tagLines := tags.map fun t =>
    padTo (padTo (padTo ("@" ++ t.tag) typeColumn ++ typeToken t) nameColumn ++
      (t.name).getD "") descColumn ++ (t.description).getD ""
  let metadataLines :=
    (if cfg.author != "" then ["@author " ++ cfg.author] else []) ++
    (if cfg.includeDate then ["@date " ++ env.currentDate] else []) ++
    (if cfg.includeTime then ["@time " ++ env.currentTime] else [])
  String.intercalate "\n" (tagLines ++ metadataLines)

/-- Modelled from the spec: the full comment generation pipeline
`render(plan(classify(node)))` of §8, with the per-run ambient inputs made
explicit. -/
def pipeline (cfg : RenderConfiguration) (env : RunEnvironment)
    (node : DeclarationNode) : String :=
  render cfg env (plan cfg env (classify cfg node))

/-! ## Concrete sample values -/

/-- A benign configuration for concrete runs: no generative collaborator, no
date or time lines, types included. -/
def sampleConfiguration : RenderConfiguration :=
  { descriptionPlaceholder := "Description placeholder"
    author := ""
    includeDate := false
    includeTime := false
    includeTypes := true
    includeParenthesisForMultipleTypes := false
    descriptionForConstructors := "Creates an instance of \x7bObject\x7d."
    functionVariablesAsFunctions := true
    includeExport := true
    includeAsync := true
    customTags := []
    tagValueColumnStart := 0
    tagNameColumnStart := 0
    tagDescriptionColumnStart := 0
    generativeApiKey := ""
    generativeModel := "gpt-4"
    generativeLanguage := "English"
    generateDescriptionForTypeParameters := false
    generateDescriptionForParameters := false
    generateDescriptionForReturns := false }

/-- The sample configuration with the date metadata line enabled. -/
def dateConfiguration : RenderConfiguration :=
  { sampleConfiguration with includeDate := true }

/-- A run environment observing the given current date. -/
def sampleEnvironment (date : String) : RunEnvironment :=
  { generativeDescription := fun _ => none
    currentDate := date
    currentTime := "12:00:00" }

/-- A simple declaration node: a parameterless named function. -/
def sampleNode : DeclarationNode :=
  { kind := DeclarationKind.function
    name := some "greet"
    parameters := []
    typeParameters := []
    returnType := some (TypeDescriptor.primitive "void")
    exported := false
    isAsync := false }

/-! ## Declarative match shapes

The claims about the completion provider describe its regular expressions
declaratively (a decomposition into whitespace, stars and slashes); the
shapes below state those decompositions, and the lemmas relate them to the
executable match functions. -/

/-- The declarative shape of a full match of `\/\**\s*$`: one `/`, a run of
`*`, then only whitespace. -/
def PreShape (cs : List Char) : Prop :=
  ∃ stars ws : List Char, cs = '/' :: (stars ++ ws) ∧
    (∀ c ∈ stars, c = '*') ∧ (∀ c ∈ ws, isWs c = true)

/-- The declarative shape of a full match of `^\s*\**\/`: a whitespace run,
a run of `*`, then one `/`. -/
def PostShape (cs : List Char) : Prop :=
  ∃ ws stars : List Char, cs = ws ++ stars ++ ['/'] ∧
    (∀ c ∈ ws, isWs c = true) ∧ (∀ c ∈ stars, c = '*')

/-! ## Helper lemmas -/

theorem configurationGet_eq_lookup (es : List (String × ConfigValue)) (key : String)
    (d : ConfigValue) : configurationGet es key d = (es.lookup key).getD d := by
  induction es with
  | nil => rfl
  | cons e es ih =>
    obtain ⟨k, v⟩ := e
    by_cases hk : k = key
    · subst hk
      simp [configurationGet, List.lookup, List.find?]
    · have hk' : ¬ key = k := fun h => hk h.symm
      simp only [configurationGet, List.lookup, List.find?] at ih ⊢
      rw [beq_eq_false_iff_ne.2 hk, beq_eq_false_iff_ne.2 hk']
      exact ih

/-- Once `lazyInstantiateJsdocGenerator` has run, the engine slot is
filled, and `getD` reads exactly the stored engine. -/
theorem lazyInstantiate_fills (st : ModuleState) :
    (lazyInstantiateJsdocGenerator st).jsdocGenerator =
      some ((lazyInstantiateJsdocGenerator st).jsdocGenerator.getD { id := 0 }) := by
  obtain ⟨jg, n⟩ := st
  cases jg <;> rfl

/-- `lazyInstantiateJsdocGenerator` is idempotent: it never replaces an
engine that is already there. -/
theorem lazyInstantiate_idem (st : ModuleState) :
    lazyInstantiateJsdocGenerator (lazyInstantiateJsdocGenerator st) =
      lazyInstantiateJsdocGenerator st := by
  obtain ⟨jg, n⟩ := st
  cases jg <;> rfl

/-- Every registered handler leaves the module state
`lazyInstantiateJsdocGenerator st`, and all the generator calls it makes use
the engine stored there and forward the given progress reporter and
cancellation token. -/
theorem handler_run_spec :
    ∀ c ∈ activateCommands, ∀ (arg : Option Uri) (window : WindowState)
      (st : ModuleState) (p t : Nat),
      (c.handler arg window st p t).state = lazyInstantiateJsdocGenerator st ∧
      ∀ call ∈ (c.handler arg window st p t).calls,
        call.generator = (lazyInstantiateJsdocGenerator st).jsdocGenerator.getD { id := 0 } ∧
        call.progress = p ∧ call.token = t := by
  intro c hc arg window st p t
  simp only [activateCommands, List.mem_cons, List.not_mem_nil, or_false] at hc
  rcases hc with rfl | rfl | rfl | rfl
  · obtain ⟨ate⟩ := window
    cases ate <;> simp [generateJsdocHandler]
  · obtain ⟨ate⟩ := window
    cases arg <;> cases ate <;> simp [generateJsdocFileHandler]
  · simp [generateJsdocFolderHandler]
  · simp [generateJsdocWorkspaceHandler]

theorem dropWhile_append_of_all (p : Char → Bool) (xs ys : List Char)
    (h : ∀ c ∈ xs, p c = true) :
    (xs ++ ys).dropWhile p = ys.dropWhile p := by
  induction xs with
  | nil => rfl
  | cons a xs ih =>
    rw [List.cons_append, List.dropWhile_cons, if_pos (h a (List.mem_cons_self a xs))]
    exact ih fun c hc => h c (List.mem_cons_of_mem a hc)

theorem dropWhile_cons_of_neg (p : Char → Bool) (a : Char) (l : List Char)
    (h : p a = false) : (a :: l).dropWhile p = a :: l := by
  simp [List.dropWhile_cons, h]

theorem not_star_of_isWs {c : Char} (h : isWs c = true) : (c == '*') = false := by
  cases hc : (c == '*') with
  | false => rfl
  | true =>
    exfalso
    have hcc : c = '*' := by simpa using hc
    subst hcc
    exact absurd h (by decide)

theorem isStarWsTail_elements (cs : List Char) (h : isStarWsTail cs = true) :
    ∀ c ∈ cs, c = '*' ∨ isWs c = true := by
  intro c hc
  rw [← List.takeWhile_append_dropWhile (fun x => x == '*') cs] at hc
  rcases List.mem_append.1 hc with h1 | h2
  · left
    simpa using List.mem_takeWhile_imp h1
  · right
    unfold isStarWsTail at h
    exact List.all_eq_true.1 h c h2

/-- The executable match of `\/\**\s*$` coincides with the declarative
shape. -/
theorem preMatchList_cons_of_ne (a : Char) (rest : List Char) (ha : a ≠ '/') :
    preMatchList (a :: rest) = false := by
  unfold preMatchList
  split
  next heq =>
    exfalso
    injection heq with h1 h2
    exact ha h1
  next => rfl

theorem preMatchList_iff (cs : List Char) : preMatchList cs = true ↔ PreShape cs := by
  constructor
  · intro h
    cases cs with
    | nil => exact absurd h (by decide)
    | cons a rest =>
      by_cases ha : a = '/'
      · subst ha
        have h' : isStarWsTail rest = true := h
        refine ⟨rest.takeWhile (fun c => c == '*'), rest.dropWhile (fun c => c == '*'),
          by rw [List.takeWhile_append_dropWhile], ?_, ?_⟩
        · intro c hc
          simpa using List.mem_takeWhile_imp hc
        · intro c hc
          unfold isStarWsTail at h'
          exact List.all_eq_true.1 h' c hc
      · rw [preMatchList_cons_of_ne a rest ha] at h
        exact absurd h (by simp)
  · rintro ⟨stars, ws, rfl, hstars, hws⟩
    show isStarWsTail (stars ++ ws) = true
    unfold isStarWsTail
    rw [dropWhile_append_of_all _ _ _ fun c hc => by simp [hstars c hc]]
    have hid : ws.dropWhile (fun c => c == '*') = ws := by
      cases ws with
      | nil => rfl
      | cons w ws' =>
        exact dropWhile_cons_of_neg _ _ _ (not_star_of_isWs (hws w (List.mem_cons_self w ws')))
    rw [hid]
    exact List.all_eq_true.2 hws

/-- The executable trigger test of `^\s*\/\*\*\s*$` coincides with the
declarative decomposition: optional whitespace, `/**`, optional
whitespace. -/
theorem triggerMatch_iff (s : String) :
    triggerMatch s = true ↔
      ∃ w1 w2 : List Char, s.data = w1 ++ '/' :: '*' :: '*' :: w2 ∧
        (∀ c ∈ w1, isWs c = true) ∧ (∀ c ∈ w2, isWs c = true) := by
  constructor
  · intro h
    unfold triggerMatch at h
    split at h
    case _ rest heq =>
      refine ⟨s.data.takeWhile isWs, rest, ?_, ?_, List.all_eq_true.1 h⟩
      · rw [← heq, List.takeWhile_append_dropWhile]
      · intro c hc
        exact List.mem_takeWhile_imp hc
    case _ => exact absurd h (by simp)
  · rintro ⟨w1, w2, hdec, hw1, hw2⟩
    unfold triggerMatch
    rw [hdec, dropWhile_append_of_all _ _ _ hw1, dropWhile_cons_of_neg _ _ _ (by rfl)]
    exact List.all_eq_true.2 hw2

/-- Where `\/\**\s*$` matches a suffix, the match length `preLen` is
determined: matching suffixes are unique, so the drop index pins it down. -/
theorem preShape_drop (cs : List Char) :
    ∀ i : Nat, PreShape (cs.drop i) → preLen cs = cs.length - i ∧ i < cs.length := by
  induction cs with
  | nil =>
    intro i h
    obtain ⟨stars, ws, habs, -, -⟩ := h
    rw [List.drop_nil] at habs
    exact absurd habs (by simp)
  | cons c rest ih =>
    intro i h
    cases i with
    | zero =>
      have hmatch : preMatchList (c :: rest) = true := (preMatchList_iff _).2 h
      refine ⟨by simp [preLen, hmatch], by simp⟩
    | succ k =>
      rw [List.drop_succ_cons] at h
      obtain ⟨hlen, hlt⟩ := ih k h
      have hmatch : preMatchList (c :: rest) = false := by
        cases hm : preMatchList (c :: rest) with
        | false => rfl
        | true =>
          exfalso
          obtain ⟨stars, ws, heq, hstars, hws⟩ := (preMatchList_iff _).1 hm
          obtain ⟨stars', ws', heq', -, -⟩ := h
          have hslash : '/' ∈ rest.drop k := by
            rw [heq']
            exact List.mem_cons_self _ _
          have hmem : '/' ∈ stars ++ ws := by
            have : '/' ∈ rest := List.Sublist.mem hslash (List.drop_sublist k rest)
            have hrest : rest = stars ++ ws := by
              injection heq
            rwa [hrest] at this
          rcases List.mem_append.1 hmem with h1 | h2
          · exact absurd (hstars '/' h1) (by decide)
          · exact absurd (hws '/' h2) (by decide)
      refine ⟨?_, by simpa using Nat.succ_lt_succ hlt⟩
      have hstep : preLen (c :: rest) = preLen rest := by simp [preLen, hmatch]
      rw [hstep, hlen]
      simp only [List.length_cons]
      omega

/-- A nonzero `preLen` is the length of a matching suffix. -/
theorem preLen_spec (cs : List Char) :
    preLen cs = 0 ∨
      (0 < preLen cs ∧ preLen cs ≤ cs.length ∧
        PreShape (cs.drop (cs.length - preLen cs))) := by
  induction cs with
  | nil => exact Or.inl rfl
  | cons c rest ih =>
    by_cases h : preMatchList (c :: rest) = true
    · right
      have hval : preLen (c :: rest) = rest.length + 1 := by simp [preLen, h]
      rw [hval]
      refine ⟨Nat.succ_pos _, by simp, ?_⟩
      have : (c :: rest).length - (rest.length + 1) = 0 := by simp
      rw [this, List.drop_zero]
      exact (preMatchList_iff _).1 h
    · have hfalse : preMatchList (c :: rest) = false := eq_false_of_ne_true h
      have hstep : preLen (c :: rest) = preLen rest := by simp [preLen, hfalse]
      rcases ih with h0 | ⟨hpos, hle, hshape⟩
      · exact Or.inl (hstep.trans h0)
      · right
        rw [hstep]
        refine ⟨hpos, Nat.le_succ_of_le hle, ?_⟩
        have harith : (c :: rest).length - preLen rest = (rest.length - preLen rest) + 1 := by
          simp only [List.length_cons]
          omega
        rw [harith, List.drop_succ_cons]
        exact hshape

/-- Where `^\s*\**\//` matches a prefix, the match length `postLen` is
determined: matching prefixes are unique, so the take length pins it
down. -/
theorem postLenTail_of_ne (total : Nat) (a : Char) (rest : List Char) (ha : a ≠ '/') :
    postLenTail total (a :: rest) = 0 := by
  unfold postLenTail
  split
  next tail heq =>
    exfalso
    injection heq with h1 h2
    exact ha h1
  next => rfl

theorem postShape_take (cs : List Char) (n : Nat) (hn : n ≤ cs.length)
    (h : PostShape (cs.take n)) : postLen cs = n := by
  obtain ⟨ws, stars, htake, hws, hstars⟩ := h
  have hcs : cs = ws ++ (stars ++ '/' :: cs.drop n) := by
    conv_lhs => rw [← List.take_append_drop n cs]
    rw [htake]
    simp
  have hn' : n = ws.length + stars.length + 1 := by
    have hlen := congrArg List.length htake
    simp [List.length_take] at hlen
    omega
  have hAfterWs : cs.dropWhile isWs = stars ++ '/' :: cs.drop n := by
    conv_lhs => rw [hcs]
    rw [dropWhile_append_of_all _ _ _ hws]
    cases stars with
    | nil =>
      exact dropWhile_cons_of_neg isWs '/' (cs.drop n) (by decide)
    | cons s ss =>
      refine dropWhile_cons_of_neg isWs s (ss ++ '/' :: cs.drop n) ?_
      have hs : s = '*' := hstars s (List.mem_cons_self s ss)
      rw [hs]
      decide
  have hAfterStars : (cs.dropWhile isWs).dropWhile (fun c => c == '*') = '/' :: cs.drop n := by
    rw [hAfterWs, dropWhile_append_of_all _ _ _ fun c hc => by simp [hstars c hc]]
    exact dropWhile_cons_of_neg _ '/' (cs.drop n) (by decide)
  have hdroplen : (cs.drop n).length = cs.length - n := List.length_drop n cs
  unfold postLen
  rw [hAfterStars]
  show cs.length - ((cs.drop n).length + 1) + 1 = n
  rw [hdroplen]
  omega

/-- A nonzero `postLen` is the length of a matching prefix. -/
theorem postLen_spec (cs : List Char) :
    postLen cs = 0 ∨
      (0 < postLen cs ∧ postLen cs ≤ cs.length ∧ PostShape (cs.take (postLen cs))) := by
  cases hm : (cs.dropWhile isWs).dropWhile (fun c => c == '*') with
  | nil =>
    left
    unfold postLen
    rw [hm]
    rfl
  | cons a rest =>
    by_cases ha : a = '/'
    · right
      subst ha
      set W := cs.takeWhile isWs with hW
      set S := (cs.dropWhile isWs).takeWhile (fun c => c == '*') with hS
      have hws : ∀ c ∈ W, isWs c = true := fun c hc => List.mem_takeWhile_imp hc
      have hstars : ∀ c ∈ S, c = '*' :=
        fun c hc => by simpa using List.mem_takeWhile_imp hc
      have hcs : cs = W ++ (S ++ '/' :: rest) := by
        rw [hW, hS]
        conv_lhs => rw [← List.takeWhile_append_dropWhile isWs cs]
        congr 1
        conv_lhs => rw [← List.takeWhile_append_dropWhile (fun c => c == '*') (cs.dropWhile isWs)]
        rw [hm]
      have hlencs := congrArg List.length hcs
      simp only [List.length_append, List.length_cons] at hlencs
      have hval : postLen cs = W.length + S.length + 1 := by
        unfold postLen
        rw [hm]
        show cs.length - (rest.length + 1) + 1 = _
        omega
      refine ⟨by omega, by omega, ?_⟩
      rw [hval]
      refine ⟨W, S, ?_, hws, hstars⟩
      have hsplit : cs = (W ++ (S ++ ['/'])) ++ rest := by
        conv_lhs => rw [hcs]
        simp
      conv_lhs => rw [hsplit]
      rw [List.take_left' (by simp [Nat.add_assoc])]
      simp
    · left
      unfold postLen
      rw [hm]
      exact postLenTail_of_ne cs.length a rest ha

/-- The start of the retrieved range: the position shifted left by the
pre-cursor match length. -/
theorem retrieveRange_start (line : String) (p : Position) :
    (retrieveRange line p).start =
      { line := p.line, character := p.character - preLen (sliceTo line p.character).data } := by
  simp only [retrieveRange, Position.translate, Position.mk.injEq]
  refine ⟨by omega, by omega⟩

/-- The end of the retrieved range: the position shifted right by the
post-cursor match length. -/
theorem retrieveRange_stop (line : String) (p : Position) :
    (retrieveRange line p).stop =
      { line := p.line, character := p.character + postLen (sliceFrom line p.character).data } := by
  simp only [retrieveRange, Position.translate, Position.mk.injEq]
  refine ⟨by omega, by omega⟩

/-! ## The claims -/

/-- Claim C2: for the single-node command body, when no active editor exists
the error `Unable to generate JSDoc: no editor has been selected.` is shown,
no generator call is made and the handler resolves; when an active editor
exists, the generator's single-node entry point is invoked on that editor
and no error is shown. -/
theorem claim_C2 : ∀ (window : WindowState) (st : ModuleState) (p t : Nat),
    (window.activeTextEditor = none →
      (generateJsdocHandler window st p t).errorMessages =
        ["Unable to generate JSDoc: no editor has been selected."] ∧
      (generateJsdocHandler window st p t).calls = [] ∧
      (generateJsdocHandler window st p t).resolves = true) ∧
    (∀ editor : TextEditor, window.activeTextEditor = some editor →
      (generateJsdocHandler window st p t).errorMessages = [] ∧
      (generateJsdocHandler window st p t).calls.map
          (fun c => (c.entryPoint, c.editorArg)) =
        [(EntryPoint.generateJsdoc, some editor)] ∧
      (generateJsdocHandler window st p t).resolves = true) := by
  intro window st p t
  constructor
  · intro h
    obtain ⟨ate⟩ := window
    cases ate with
    | none => simp [generateJsdocHandler]
    | some editor => simp at h
  · intro editor h
    obtain ⟨ate⟩ := window
    simp only at h
    subst h
    simp [generateJsdocHandler]

/-- Claim C3: for the file-scope command body, a supplied file `Uri` wins and
the generator runs on a `TextFile` built from it together with a fresh
(empty) `WorkspaceEdit`; otherwise an active editor is used; otherwise the
error `Unable to generate JSDoc: no valid file has been selected.` is shown,
no generator call is made and the handler resolves. -/
theorem claim_C3 : ∀ (file : Option Uri) (window : WindowState) (st : ModuleState)
    (p t : Nat),
    WorkspaceEdit.fresh.edits = [] ∧
    (∀ f : Uri, file = some f →
      (generateJsdocFileHandler file window st p t).calls.map
          (fun c => (c.entryPoint, c.fileArg)) =
        [(EntryPoint.generateJsdocFile,
          some (TextFile.ofWorkspaceEdit WorkspaceEdit.fresh f))] ∧
      (generateJsdocFileHandler file window st p t).errorMessages = []) ∧
    (∀ editor : TextEditor, file = none → window.activeTextEditor = some editor →
      (generateJsdocFileHandler file window st p t).calls.map
          (fun c => (c.entryPoint, c.fileArg)) =
        [(EntryPoint.generateJsdocFile, some (TextFile.ofTextEditor editor))] ∧
      (generateJsdocFileHandler file window st p t).errorMessages = []) ∧
    (file = none → window.activeTextEditor = none →
      (generateJsdocFileHandler file window st p t).errorMessages =
        ["Unable to generate JSDoc: no valid file has been selected."] ∧
      (generateJsdocFileHandler file window st p t).calls = [] ∧
      (generateJsdocFileHandler file window st p t).resolves = true) := by
  intro file window st p t
  refine ⟨rfl, ?_, ?_, ?_⟩
  · intro f hf
    subst hf
    simp [generateJsdocFileHandler]
  · intro editor hf he
    subst hf
    obtain ⟨ate⟩ := window
    simp only at he
    subst he
    simp [generateJsdocFileHandler]
  · intro hf he
    subst hf
    obtain ⟨ate⟩ := window
    simp only at he
    subst he
    simp [generateJsdocFileHandler]

/-- Claim C5: `getConfig` reads the current configuration store afresh on
each call, returns the value stored under `jsdoc-generator.` followed by the
property name (the default when none is stored), and leaves the store
unchanged; its result depends on nothing but the store's current entries. -/
theorem claim_C5 : ∀ (w : WorkspaceState) (property : String) (defaultValue : ConfigValue),
    (getConfig w property defaultValue).1 =
      ((w.configurationEntries.lookup ("jsdoc-generator." ++ property)).getD defaultValue) ∧
    (getConfig w property defaultValue).2 = w ∧
    (∀ w' : WorkspaceState, w'.configurationEntries = w.configurationEntries →
      (getConfig w' property defaultValue).1 = (getConfig w property defaultValue).1) := by
  intro w property defaultValue
  refine ⟨?_, rfl, ?_⟩
  · exact configurationGet_eq_lookup w.configurationEntries _ defaultValue
  · intro w' h
    simp [getConfig, WorkspaceState.getConfiguration, configurationGet, h]

/-- Claim C9: every constructed `JsdocCompletionItem` has the label
`/** Autogenerated JSDoc */`, kind Snippet, empty insert text, sort text
`"\x00"`, and a command that triggers `jsdoc-generator.generateJsdoc` with
title `Generate JSDoc`. -/
theorem claim_C9 : ∀ (line : String) (position : Position),
    (JsdocCompletionItem.make line position).label = "/** Autogenerated JSDoc */" ∧
    (JsdocCompletionItem.make line position).kind = CompletionItemKind.snippet ∧
    (JsdocCompletionItem.make line position).insertText = "" ∧
    (JsdocCompletionItem.make line position).sortText = "\x00" ∧
    (JsdocCompletionItem.make line position).command =
      { title := "Generate JSDoc", command := "jsdoc-generator.generateJsdoc" } := by
  intro line position
  exact ⟨rfl, rfl, rfl, rfl, rfl⟩

/-- Claim C1, counterexample: the engine is a lazily-instantiated
module-level variable, so invocations do share it.  Starting from the loaded
module state, a first `generateJsdoc` invocation (with editor 1 active)
creates engine 0 and uses it; a second invocation (with editor 2 active),
run on the state the first left behind, creates nothing and uses that very
engine 0 — it observes an engine object created by the other invocation,
contrary to the claim. -/
theorem claim_C1_counterexample :
    initialModuleState.jsdocGenerator = none ∧
    (generateJsdocHandler { activeTextEditor := some { id := 1 } }
        initialModuleState 0 0).state.jsdocGenerator = some { id := 0 } ∧
    (generateJsdocHandler { activeTextEditor := some { id := 1 } }
        initialModuleState 0 0).calls.map (fun c => c.generator) = [{ id := 0 }] ∧
    (generateJsdocHandler { activeTextEditor := some { id := 2 } }
        (generateJsdocHandler { activeTextEditor := some { id := 1 } }
          initialModuleState 0 0).state 0 0).state =
      (generateJsdocHandler { activeTextEditor := some { id := 1 } }
        initialModuleState 0 0).state ∧
    (generateJsdocHandler { activeTextEditor := some { id := 2 } }
        (generateJsdocHandler { activeTextEditor := some { id := 1 } }
          initialModuleState 0 0).state 0 0).calls.map (fun c => c.generator) =
      [{ id := 0 }] := by
  decide

/-- Claim C1, amended: the engine is a process-wide, lazily-initialized
module-level singleton shared by all command invocations.
`lazyInstantiateJsdocGenerator` creates an engine only when the slot is
empty and never replaces an existing one; every handler leaves the module
state that lazy instantiation produces; every generator call an invocation
makes uses the engine stored in that state; and for any invocation run on
the state an earlier invocation left behind, every generator call of the
later one uses exactly the engine the earlier one left stored. -/
theorem claim_C1 : ∀ (g : JsdocGenerator) (n : Nat) (arg arg' : Option Uri)
    (window window' : WindowState) (st : ModuleState) (p t p' t' : Nat),
    lazyInstantiateJsdocGenerator { jsdocGenerator := some g, nextId := n } =
      { jsdocGenerator := some g, nextId := n } ∧
    lazyInstantiateJsdocGenerator { jsdocGenerator := none, nextId := n } =
      { jsdocGenerator := some { id := n }, nextId := n + 1 } ∧
    (∀ c ∈ activateCommands,
      (c.handler arg window st p t).state = lazyInstantiateJsdocGenerator st) ∧
    (∀ c ∈ activateCommands, ∀ call ∈ (c.handler arg window st p t).calls,
      (c.handler arg window st p t).state.jsdocGenerator = some call.generator) ∧
    (∀ c ∈ activateCommands, ∀ c' ∈ activateCommands,
      ∀ call' ∈ (c'.handler arg' window'
          ((c.handler arg window st p t).state) p' t').calls,
        some call'.generator = ((c.handler arg window st p t).state).jsdocGenerator) := by
  intro g n arg arg' window window' st p t p' t'
  refine ⟨rfl, rfl, ?_, ?_, ?_⟩
  · intro c hc
    exact (handler_run_spec c hc arg window st p t).1
  · intro c hc call hcall
    obtain ⟨hstate, hcalls⟩ := handler_run_spec c hc arg window st p t
    rw [hstate, (hcalls call hcall).1]
    exact lazyInstantiate_fills st
  · intro c hc c' hc' call' hcall'
    obtain ⟨hstate, _⟩ := handler_run_spec c hc arg window st p t
    obtain ⟨_, hcalls'⟩ :=
      handler_run_spec c' hc' arg' window' ((c.handler arg window st p t).state) p' t'
    rw [(hcalls' call' hcall').1, hstate, lazyInstantiate_idem st]
    exact (lazyInstantiate_fills st).symm

/-- Claim C4: `activate` registers exactly the four commands, each with a
cancellable progress context; every generator call any handler makes
forwards the progress reporter and cancellation token that `withProgress`
supplied; the folder command forwards its folder `Uri` argument to the
workspace-scope entry point, and the workspace command invokes that same
entry point with no folder argument. -/
theorem claim_C4 : ∀ (arg : Option Uri) (window : WindowState) (st : ModuleState)
    (p t : Nat),
    activateCommands.map (fun c => c.id) =
      ["jsdoc-generator.generateJsdoc", "jsdoc-generator.generateJsdocFile",
       "jsdoc-generator.generateJsdocFolder", "jsdoc-generator.generateJsdocWorkspace"] ∧
    (∀ c ∈ activateCommands, c.progressOptions.cancellable = true) ∧
    (∀ c ∈ activateCommands, ∀ call ∈ (c.handler arg window st p t).calls,
      call.progress = p ∧ call.token = t) ∧
    (∀ c ∈ activateCommands, c.id = "jsdoc-generator.generateJsdocFolder" →
      (c.handler arg window st p t).calls.map
          (fun call => (call.entryPoint, call.folderArg)) =
        [(EntryPoint.generateJsdocWorkspace, arg)]) ∧
    (∀ c ∈ activateCommands, c.id = "jsdoc-generator.generateJsdocWorkspace" →
      (c.handler arg window st p t).calls.map
          (fun call => (call.entryPoint, call.folderArg)) =
        [(EntryPoint.generateJsdocWorkspace, (none : Option Uri))]) := by
  intro arg window st p t
  refine ⟨rfl, ?_, ?_, ?_, ?_⟩
  · intro c hc
    simp only [activateCommands, List.mem_cons, List.not_mem_nil, or_false] at hc
    rcases hc with rfl | rfl | rfl | rfl <;> rfl
  · intro c hc call hcall
    exact ((handler_run_spec c hc arg window st p t).2 call hcall).2
  · intro c hc hid
    simp only [activateCommands, List.mem_cons, List.not_mem_nil, or_false] at hc
    rcases hc with rfl | rfl | rfl | rfl
    · exact absurd hid (by decide)
    · exact absurd hid (by decide)
    · simp [generateJsdocFolderHandler]
    · exact absurd hid (by decide)
  · intro c hc hid
    simp only [activateCommands, List.mem_cons, List.not_mem_nil, or_false] at hc
    rcases hc with rfl | rfl | rfl | rfl
    · exact absurd hid (by decide)
    · exact absurd hid (by decide)
    · exact absurd hid (by decide)
    · simp [generateJsdocWorkspaceHandler]

/-- Claim C7: a Union or Intersection that is the element of an Array, or
that is marked optional, renders parenthesized whether or not the
`includeParenthesisForMultipleTypes` flag is set. -/
theorem claim_C7 : ∀ (includeParens : Bool) (members : List TypeDescriptor),
    (∃ inner, renderTypeDescriptor includeParens false
        (TypeDescriptor.array (TypeDescriptor.union members)) = "(" ++ inner ++ ")" ++ "[]") ∧
    (∃ inner, renderTypeDescriptor includeParens false
        (TypeDescriptor.array (TypeDescriptor.intersection members)) =
      "(" ++ inner ++ ")" ++ "[]") ∧
    (∃ inner, renderOptionalType includeParens true (TypeDescriptor.union members) =
      "(" ++ inner ++ ")" ++ "=") ∧
    (∃ inner, renderOptionalType includeParens true (TypeDescriptor.intersection members) =
      "(" ++ inner ++ ")" ++ "=") := by
  intro includeParens members
  refine ⟨⟨renderSeparated includeParens " | " members, ?_⟩,
    ⟨renderSeparated includeParens " & " members, ?_⟩,
    ⟨renderSeparated includeParens " | " members, ?_⟩,
    ⟨renderSeparated includeParens " & " members, ?_⟩⟩ <;>
  simp [renderTypeDescriptor, renderOptionalType]

/-- Claim C6, counterexample: with no generative description enabled but the
date line included, two runs of the full pipeline on the same node and
configuration observe different current dates and produce different comment
text — the pipeline is not byte-identical across runs as claimed. -/
theorem claim_C6_counterexample :
    generativeEnabled dateConfiguration = false ∧
    pipeline dateConfiguration (sampleEnvironment "01/01/2024") sampleNode ≠
      pipeline dateConfiguration (sampleEnvironment "02/01/2024") sampleNode := by
  constructor
  · rfl
  · decide

/-- Claim C6, amended: with identical structure and configuration, no
generative description enabled, and the date and time metadata lines
disabled, two runs of `render(plan(classify(node)))` produce byte-identical
comment text whatever the per-run environments are. -/
theorem claim_C6 : ∀ (cfg : RenderConfiguration) (env1 env2 : RunEnvironment)
    (node : DeclarationNode),
    generativeEnabled cfg = false → cfg.includeDate = false → cfg.includeTime = false →
    pipeline cfg env1 node = pipeline cfg env2 node := by
  intro cfg env1 env2 node hg hd ht
  unfold pipeline
  have hplan : plan cfg env1 (classify cfg node) = plan cfg env2 (classify cfg node) := by
    simp [plan, fetchDescription, hg]
  rw [hplan]
  simp [render, hd, ht]

/-- Claim C6, witness: the amended statement at the sample configuration,
node and two environments differing in their dates. -/
theorem claim_C6_witness :
    generativeEnabled sampleConfiguration = false ∧
    sampleConfiguration.includeDate = false ∧
    sampleConfiguration.includeTime = false ∧
    pipeline sampleConfiguration (sampleEnvironment "01/01/2024") sampleNode =
      pipeline sampleConfiguration (sampleEnvironment "02/01/2024") sampleNode :=
  ⟨rfl, rfl, rfl,
    claim_C6 sampleConfiguration (sampleEnvironment "01/01/2024")
      (sampleEnvironment "02/01/2024") sampleNode rfl rfl rfl⟩

/-- Claim C8: the completion provider returns exactly one
`JsdocCompletionItem` precisely when the line text strictly before the
cursor is optional whitespace, then `/**`, then optional whitespace; in
every other case it returns `null`. -/
theorem claim_C8 : ∀ (document : TextDocument) (position : Position),
    ((∃ w1 w2 : List Char,
        (sliceTo (document.lineAt position.line) position.character).data =
          w1 ++ '/' :: '*' :: '*' :: w2 ∧
        (∀ c ∈ w1, isWs c = true) ∧ (∀ c ∈ w2, isWs c = true)) →
      provideCompletionItems document position =
        some [JsdocCompletionItem.make (document.lineAt position.line) position]) ∧
    (¬ (∃ w1 w2 : List Char,
        (sliceTo (document.lineAt position.line) position.character).data =
          w1 ++ '/' :: '*' :: '*' :: w2 ∧
        (∀ c ∈ w1, isWs c = true) ∧ (∀ c ∈ w2, isWs c = true)) →
      provideCompletionItems document position = none) := by
  intro document position
  constructor
  · intro hex
    have ht : triggerMatch (sliceTo (document.lineAt position.line) position.character) = true :=
      (triggerMatch_iff _).2 hex
    simp [provideCompletionItems, ht]
  · intro hn
    have ht : triggerMatch (sliceTo (document.lineAt position.line) position.character) = false := by
      cases h : triggerMatch (sliceTo (document.lineAt position.line) position.character) with
      | false => rfl
      | true => exact absurd ((triggerMatch_iff _).1 h) hn
    simp [provideCompletionItems, ht]

/-- Claim C10: `retrieveRange` stays on the cursor's line; its start is the
position shifted left by the length of the (unique, hence longest) suffix of
the pre-cursor text of the shape `/`, stars, whitespace — zero shift when no
suffix has that shape — and its end is the position shifted right by the
length of the (unique, hence longest) prefix of the post-cursor text of the
shape whitespace, stars, `/` — zero when none; consequently
start ≤ position ≤ end, and the range collapses to the position when
neither side matches. -/
theorem claim_C10 : ∀ (line : String) (position : Position),
    (retrieveRange line position).start.line = position.line ∧
    (retrieveRange line position).stop.line = position.line ∧
    (retrieveRange line position).start.character ≤ position.character ∧
    position.character ≤ (retrieveRange line position).stop.character ∧
    (∀ n ≤ (sliceTo line position.character).data.length,
      PreShape ((sliceTo line position.character).data.drop
          ((sliceTo line position.character).data.length - n)) →
      position.character = (retrieveRange line position).start.character + n) ∧
    ((∀ n ≤ (sliceTo line position.character).data.length,
        ¬ PreShape ((sliceTo line position.character).data.drop
          ((sliceTo line position.character).data.length - n))) →
      (retrieveRange line position).start.character = position.character) ∧
    (∀ n ≤ (sliceFrom line position.character).data.length,
      PostShape ((sliceFrom line position.character).data.take n) →
      (retrieveRange line position).stop.character = position.character + n) ∧
    ((∀ n ≤ (sliceFrom line position.character).data.length,
        ¬ PostShape ((sliceFrom line position.character).data.take n)) →
      (retrieveRange line position).stop.character = position.character) ∧
    ((∀ n ≤ (sliceTo line position.character).data.length,
        ¬ PreShape ((sliceTo line position.character).data.drop
          ((sliceTo line position.character).data.length - n))) →
      (∀ n ≤ (sliceFrom line position.character).data.length,
        ¬ PostShape ((sliceFrom line position.character).data.take n)) →
      retrieveRange line position = { start := position, stop := position }) := by
  intro line position
  set pre := (sliceTo line position.character).data with hpre
  set post := (sliceFrom line position.character).data with hpost
  have hstart := retrieveRange_start line position
  have hstop := retrieveRange_stop line position
  have hplen : pre.length ≤ position.character := by
    rw [hpre]
    simp [sliceTo]
  have preZero : (∀ n ≤ pre.length, ¬ PreShape (pre.drop (pre.length - n))) →
      preLen pre = 0 := by
    intro hno
    rcases preLen_spec pre with h0 | ⟨hpos, hle, hshape⟩
    · exact h0
    · exact absurd hshape (hno (preLen pre) hle)
  have postZero : (∀ n ≤ post.length, ¬ PostShape (post.take n)) →
      postLen post = 0 := by
    intro hno
    rcases postLen_spec post with h0 | ⟨hpos, hle, hshape⟩
    · exact h0
    · exact absurd hshape (hno (postLen post) hle)
  refine ⟨by rw [hstart], by rw [hstop], ?_, ?_, ?_, ?_, ?_, ?_, ?_⟩
  · rw [hstart]
    exact Nat.sub_le _ _
  · rw [hstop]
    exact Nat.le_add_right _ _
  · intro n hn hshape
    obtain ⟨hval, hlt⟩ := preShape_drop pre (pre.length - n) hshape
    rw [hstart]
    show position.character = position.character - preLen pre + n
    omega
  · intro hno
    rw [hstart]
    show position.character - preLen pre = position.character
    rw [preZero hno]
    omega
  · intro n hn hshape
    rw [hstop]
    show position.character + postLen post = position.character + n
    rw [postShape_take post n hn hshape]
  · intro hno
    rw [hstop]
    show position.character + postLen post = position.character
    rw [postZero hno]
    omega
  · intro hno1 hno2
    have e1 : (retrieveRange line position).start = position := by
      rw [hstart, preZero hno1]
      simp
    have e2 : (retrieveRange line position).stop = position := by
      rw [hstop, postZero hno2]
      simp
    calc retrieveRange line position
        = { start := (retrieveRange line position).start,
            stop := (retrieveRange line position).stop } := rfl
      _ = { start := position, stop := position } := by rw [e1, e2]

end JsdocGen
